import Mathlib

/-!
Verification development for the Netflix_Recommender IMDb enrichment engine
(`Recommender/Recommender-Code/imdb_data.py`).

Shallow embedding conventions:

* A Cinemagoer search result (`imdb.Movie`) is a `RawCandidate`: its
  `movieID` attribute always exists, while the dictionary keys `'title'` and
  `'year'` may be absent.  `movie['year']` / `movie['title']` raise `KeyError`
  when the key is absent; raising is modelled by `Except Unit`.
* The external collaborator `self.ia` is modelled by two oracle functions:
  `search : String → Except Unit (List RawCandidate)` for
  `self.ia.search_movie(movie_name)` and
  `getMovie : String → Except Unit Details` for `self.ia.get_movie(movie_id)`.
  `Except.error ()` is an exception escaping the collaborator call.
* `movie_details.get(key, default)` never raises; absent keys are `none`.
  In the source, `'IMDB Rating'` and `'Genres'` use `[]` as the absent
  sentinel and `'Type'` uses `None`; absence is uniformly `none` here.
  The float rating value is opaque to every claim and is carried as `Rat`.
* Pandas `iloc[a:b]` integer slicing follows Python list-slice semantics
  (negative indices wrap from the end, out-of-range indices clamp), embedded
  by `pySlice`.
* Thread-pool completion order inside a batch is nondeterministic in the
  source; it is modelled as submission order.  Every property proved below
  (dispatch counts, membership, provenance, lengths) is insensitive to the
  within-batch permutation.
-/

/-- A person object inside a Cinemagoer details record; only its `personID`
is consumed by the source (`director.personID`, `actor.personID`). -/
structure Person where
  personID : String
deriving DecidableEq

/-- A Cinemagoer search result.  `movieID` is an attribute that is always
present; `title` and `year` are dictionary keys that may be absent. -/
structure RawCandidate where
  movieID : String
  title : Option String
  year : Option Int
deriving DecidableEq

/-- The detailed record returned by `self.ia.get_movie`; all five keys read
by the source may be absent. -/
structure Details where
  kind : Option String
  genres : Option (List String)
  directors : Option (List Person)
  rating : Option Rat
  cast : Option (List Person)
deriving DecidableEq

/-- The dictionary built and returned by `fetch_movie_data` on a match
(source lines 132-140).  `Type'` stands for the `'Type'` key. -/
structure EnrichedRecord where
  Title : String
  ReleaseYear : Int
  Type' : Option String
  Genres : List String
  Director : List String
  IMDBRating : Option Rat
  Cast : List String
deriving DecidableEq

/-- Assembly of the returned dictionary from the fetched details
(source lines 132-140): every absent optional key maps to its
default (`movie_details.get('kind')` is `None`, the list-valued keys
default to empty lists). -/
def mkEnriched (movie_name : String) (year : Int) (movie_details : Details) :
    EnrichedRecord where
  Title := movie_name
  ReleaseYear := year
  Type' := movie_details.kind
  Genres := movie_details.genres.getD []
  Director := (movie_details.directors.getD []).map Person.personID
  IMDBRating := movie_details.rating
  Cast := (movie_details.cast.getD []).map Person.personID

/-- Dictionary access `movie[key]`: raises `KeyError` when the key is
absent. -/
def getItem {α : Type} : Option α → Except Unit α
  | none => Except.error ()
  | some v => Except.ok v

/-- The candidate loop of `fetch_movie_data` (source lines 126-140), inside
the `try` block: for each candidate, evaluate
`movie['year'] == year and movie['title'] == movie_name` with Python
short-circuiting, and on the first match call `self.ia.get_movie` and build
the result dictionary.  Falling off the loop reaches `return None`
(line 145). -/
def resolveLoop (getMovie : String → Except Unit Details)
    (movie_name : String) (year : Int) :
    List RawCandidate → Except Unit (Option EnrichedRecord)
  | [] => Except.ok none
  | movie :: rest =>
    match getItem movie.year with
    | Except.error e => Except.error e
    | Except.ok y =>
      if y = year then
        match getItem movie.title with
        | Except.error e => Except.error e
        | Except.ok t =>
          if t = movie_name then
            match getMovie movie.movieID with
            | Except.error e => Except.error e
            | Except.ok movie_details =>
              Except.ok (some (mkEnriched movie_name year movie_details))
          else resolveLoop getMovie movie_name year rest
      else resolveLoop getMovie movie_name year rest

/-- The whole `try` block of `fetch_movie_data` (source lines 123-140):
search, then the candidate loop.  An `Except.error` value is an exception
reaching the `except Exception` handler of line 141. -/
def fetchTry (search : String → Except Unit (List RawCandidate))
    (getMovie : String → Except Unit Details)
    (movie_name : String) (year : Int) : Except Unit (Option EnrichedRecord) :=
  match search movie_name with
  | Except.error e => Except.error e
  | Except.ok movies => resolveLoop getMovie movie_name year movies

/-- `fetch_movie_data` (source lines 102-145): the `try` block wrapped in the
catch-all `except Exception` handler, which reports the error and falls
through to `return None`. -/
def fetch_movie_data (search : String → Except Unit (List RawCandidate))
    (getMovie : String → Except Unit Details)
    (movie_name : String) (year : Int) : Option EnrichedRecord :=
  match fetchTry search getMovie movie_name year with
  | Except.error _ => none
  | Except.ok r => r

/-- Instrumentation of `resolveLoop`: the list of movie ids passed to
`self.ia.get_movie` while scanning the candidates (at most one, since the
loop returns right after the call; an aborted scan fetches none). -/
def resolveCalls (movie_name : String) (year : Int) :
    List RawCandidate → List String
  | [] => []
  | movie :: rest =>
    match movie.year with
    | none => []
    | some y =>
      if y = year then
        match movie.title with
        | none => []
        | some t =>
          if t = movie_name then [movie.movieID]
          else resolveCalls movie_name year rest
      else resolveCalls movie_name year rest

/-- The spec's Candidate shape (§3): a search result whose `title` and
`year` fields are both present. -/
structure Candidate where
  externalId : String
  title : String
  year : Int
deriving DecidableEq

/-- A well-formed candidate as the raw search result carrying it. -/
def Candidate.toRaw (c : Candidate) : RawCandidate :=
  { movieID := c.externalId, title := some c.title, year := some c.year }

/-- The value produced by `future.result()` in `get_imdb` (source line 184):
the worker function is `fetch_movie_data`, whose body is one catch-all
`try`/`except`, so the future holds a normal return value and never an
exception. -/
def futureResult (search : String → Except Unit (List RawCandidate))
    (getMovie : String → Except Unit Details)
    (movie_name : String) (year : Int) : Except Unit (Option EnrichedRecord) :=
  Except.ok (fetch_movie_data search getMovie movie_name year)

/-- Processing of one completed future in `get_imdb` (source lines 181-190):
a raising `future.result()` is reported and appends nothing; a truthy result
(the built dictionary is never empty) is appended to `imdb_info`. -/
def processFuture (acc : List EnrichedRecord) :
    Except Unit (Option EnrichedRecord) → List EnrichedRecord
  | Except.error _ => acc
  | Except.ok none => acc
  | Except.ok (some result) => acc ++ [result]

/-- Effective index of a Python slice endpoint `i` for a sequence of length
`L`: negative indices wrap from the end and clamp at 0, nonnegative indices
clamp at `L`. -/
def pyIdx (L : Nat) (i : Int) : Nat :=
  if i < 0 then (i + L).toNat else min i.toNat L

/-- Python (and pandas `iloc`) slice `l[a:b]` with step 1. -/
def pySlice {α : Type} (l : List α) (a b : Int) : List α :=
  (l.take (pyIdx l.length b)).drop (pyIdx l.length a)

/-- The `while` loop of `get_imdb` (source lines 170-195).  State:
`batch_start_index`, `batch_counter`, and the accumulated `imdb_info`.
One iteration slices the batch, submits one worker per record and folds the
completed futures into `imdb_info`, then advances the two counters; the
trailing `if batch_counter > max_num_batches: break` of lines 193-195 is
kept as the inner conditional. -/
def get_imdb_loop (search : String → Except Unit (List RawCandidate))
    (getMovie : String → Except Unit Details)
    (movies : List (String × Int)) (batch_size max_num_batches : Int)
    (batch_start_index batch_counter : Int) (acc : List EnrichedRecord) :
    List EnrichedRecord :=
  if _h : batch_counter < max_num_batches ∧
      batch_start_index < (movies.length : Int) - batch_size then
    if batch_counter + 1 > max_num_batches then
      (pySlice movies batch_start_index (batch_start_index + batch_size)).foldl
        (fun a p => processFuture a (futureResult search getMovie p.1 p.2)) acc
    else
      get_imdb_loop search getMovie movies batch_size max_num_batches
        (batch_start_index + batch_size) (batch_counter + 1)
        ((pySlice movies batch_start_index (batch_start_index + batch_size)).foldl
          (fun a p => processFuture a (futureResult search getMovie p.1 p.2)) acc)
  else acc
termination_by (max_num_batches - batch_counter).toNat
decreasing_by
  omega

/-- `get_imdb` (source lines 147-195): run the batch loop from
`batch_start_index = 0`, `batch_counter = 0` with an empty `imdb_info`.
The catalog is the zipped `(Title, ReleaseYear)` columns of `movies_df`. -/
def get_imdb (movies : List (String × Int)) (batch_size max_num_batches : Int)
    (search : String → Except Unit (List RawCandidate))
    (getMovie : String → Except Unit Details) : List EnrichedRecord :=
  get_imdb_loop search getMovie movies batch_size max_num_batches 0 0 []

/-- The records submitted to workers by the batch loop, in submission order:
same control flow as `get_imdb_loop`, projected onto the sliced batches. -/
def dispatched_loop (movies : List (String × Int))
    (batch_size max_num_batches : Int)
    (batch_start_index batch_counter : Int) : List (String × Int) :=
  if _h : batch_counter < max_num_batches ∧
      batch_start_index < (movies.length : Int) - batch_size then
    if batch_counter + 1 > max_num_batches then
      pySlice movies batch_start_index (batch_start_index + batch_size)
    else
      pySlice movies batch_start_index (batch_start_index + batch_size) ++
        dispatched_loop movies batch_size max_num_batches
          (batch_start_index + batch_size) (batch_counter + 1)
  else []
termination_by (max_num_batches - batch_counter).toNat
decreasing_by
  omega

/-- All records a run of `get_imdb` dispatches to workers. -/
def dispatchedRecords (movies : List (String × Int))
    (batch_size max_num_batches : Int) : List (String × Int) :=
  dispatched_loop movies batch_size max_num_batches 0 0

/-! ## Slice lemmas -/

theorem pyIdx_natCast (L a : Nat) : pyIdx L (a : Int) = min a L := by
  simp [pyIdx]

theorem pySlice_natCast {α : Type} (l : List α) (a c : Nat) :
    pySlice l (a : Int) ((a : Int) + (c : Int)) = (l.drop a).take c := by
  have hcast : ((a : Int) + (c : Int)) = ((a + c : Nat) : Int) := by push_cast; ring
  rw [pySlice, hcast, pyIdx_natCast, pyIdx_natCast, List.drop_take]
  rcases le_or_lt a l.length with hle | hlt
  · rw [min_eq_left hle]
    rcases le_or_lt (a + c) l.length with h2 | h2
    · rw [min_eq_left h2]
      congr 1
      omega
    · rw [min_eq_right (le_of_lt h2)]
      rw [List.take_eq_take]
      simp [List.length_drop]
      omega
  · rw [min_eq_right (le_of_lt hlt)]
    rw [List.drop_eq_nil_of_le (by omega : l.length ≤ a), List.take_nil,
      List.drop_eq_nil_of_le]
    · simp
    · exact le_rfl

theorem pySlice_neg_nil {α : Type} (l : List α) (s b : Int)
    (hs : s < 0) (hb : b < 0) : pySlice l s (s + b) = [] := by
  rw [pySlice]
  apply List.drop_eq_nil_of_le
  rw [List.length_take]
  have h1 : pyIdx l.length (s + b) ≤ pyIdx l.length s := by
    simp only [pyIdx, if_pos hs, if_pos (by omega : s + b < 0)]
    omega
  omega

theorem pySlice_zero_zero {α : Type} (l : List α) : pySlice l 0 (0 + 0) = [] := by
  simp [pySlice, pyIdx]

/-! ## Batch-fold and loop characterisation -/

theorem foldl_processFuture (search : String → Except Unit (List RawCandidate))
    (getMovie : String → Except Unit Details) :
    ∀ (batch : List (String × Int)) (acc : List EnrichedRecord),
      batch.foldl (fun a p => processFuture a (futureResult search getMovie p.1 p.2)) acc
        = acc ++ batch.filterMap (fun p => fetch_movie_data search getMovie p.1 p.2) := by
  intro batch
  induction batch with
  | nil => intro acc; simp
  | cons p rest ih =>
    intro acc
    rw [List.foldl_cons, List.filterMap_cons]
    cases hf : fetch_movie_data search getMovie p.1 p.2 with
    | none =>
      rw [show processFuture acc (futureResult search getMovie p.1 p.2) = acc by
        rw [futureResult, hf]; rfl]
      rw [ih]
    | some r =>
      rw [show processFuture acc (futureResult search getMovie p.1 p.2) = acc ++ [r] by
        rw [futureResult, hf]; rfl]
      rw [ih, List.append_assoc]
      rfl

theorem get_imdb_loop_char (search : String → Except Unit (List RawCandidate))
    (getMovie : String → Except Unit Details)
    (movies : List (String × Int)) (B M : Int) :
    ∀ (s c : Int) (acc : List EnrichedRecord),
      get_imdb_loop search getMovie movies B M s c acc
        = acc ++ (dispatched_loop movies B M s c).filterMap
            (fun p => fetch_movie_data search getMovie p.1 p.2) := by
  have key : ∀ (n : Nat) (s c : Int) (acc : List EnrichedRecord),
      (M - c).toNat ≤ n →
      get_imdb_loop search getMovie movies B M s c acc
        = acc ++ (dispatched_loop movies B M s c).filterMap
            (fun p => fetch_movie_data search getMovie p.1 p.2) := by
    intro n
    induction n with
    | zero =>
      intro s c acc hn
      rw [get_imdb_loop.eq_def, dispatched_loop.eq_def]
      rw [dif_neg (by omega), dif_neg (by omega)]
      simp
    | succ k ih =>
      intro s c acc hn
      rw [get_imdb_loop.eq_def, dispatched_loop.eq_def]
      by_cases hg : c < M ∧ s < (movies.length : Int) - B
      · rw [dif_pos hg, dif_pos hg]
        by_cases hb : c + 1 > M
        · rw [if_pos hb, if_pos hb, foldl_processFuture]
        · rw [if_neg hb, if_neg hb, ih (s + B) (c + 1) _ (by omega),
            foldl_processFuture, List.filterMap_append, List.append_assoc]
      · rw [dif_neg hg, dif_neg hg]
        simp
  intro s c acc
  exact key (M - c).toNat s c acc le_rfl

theorem get_imdb_char (movies : List (String × Int)) (B M : Int)
    (search : String → Except Unit (List RawCandidate))
    (getMovie : String → Except Unit Details) :
    get_imdb movies B M search getMovie
      = (dispatchedRecords movies B M).filterMap
          (fun p => fetch_movie_data search getMovie p.1 p.2) := by
  rw [get_imdb, dispatchedRecords, get_imdb_loop_char]
  rfl

/-- Core count of the batch loop for a positive batch size: starting from
batch `k` (so `batch_start_index = k * b`), the loop dispatches the next
`min m ((L - 1) / b) - k` full batches.  The strict `<` in the loop guard
makes the batch count `(L - 1) / b`, not `L / b`: when `b` divides `L`, the
final full batch fails the guard `k * b < L - b` and is dropped. -/
theorem dispatched_loop_char (movies : List (String × Int)) (b m : Nat)
    (hb : 0 < b) :
    ∀ (k : Nat),
      dispatched_loop movies (b : Int) (m : Int) ((k * b : Nat) : Int) (k : Int)
        = (movies.drop (k * b)).take
            ((min m ((movies.length - 1) / b) - k) * b) := by
  have key : ∀ (n k : Nat), m - k ≤ n →
      dispatched_loop movies (b : Int) (m : Int) ((k * b : Nat) : Int) (k : Int)
        = (movies.drop (k * b)).take
            ((min m ((movies.length - 1) / b) - k) * b) := by
    intro n
    induction n with
    | zero =>
      intro k hk
      rw [dispatched_loop.eq_def, dif_neg (by
        intro hcon
        have hcast : (k : Int) < (m : Int) := hcon.1
        have : k < m := by exact_mod_cast hcast
        omega)]
      have hz : (min m ((movies.length - 1) / b) - k) * b = 0 := by
        have hle : min m ((movies.length - 1) / b) ≤ m := min_le_left _ _
        have : min m ((movies.length - 1) / b) - k = 0 := by omega
        rw [this, Nat.zero_mul]
      rw [hz, List.take_zero]
    | succ n ih =>
      intro k hk
      have hdiv1 : k + 1 ≤ (movies.length - 1) / b ↔
          (k + 1) * b ≤ movies.length - 1 := Nat.le_div_iff_mul_le hb
      have hmul : (k + 1) * b = k * b + b := by ring
      by_cases hkm : k < min m ((movies.length - 1) / b)
      · have h2 : k * b + b ≤ movies.length - 1 := by
          rw [← hmul]
          exact hdiv1.mp (by omega)
        have hL : 1 ≤ movies.length := by omega
        rw [dispatched_loop.eq_def, dif_pos
          ⟨(by exact_mod_cast (show k < m by omega) : (k : Int) < (m : Int)),
           (by omega : ((k * b : Nat) : Int) < (movies.length : Int) - (b : Int))⟩]
        rw [if_neg (by
          intro hcon
          have hmk : m < k + 1 := by exact_mod_cast hcon
          omega)]
        rw [pySlice_natCast]
        have e1 : ((k * b : Nat) : Int) + (b : Int) = (((k + 1) * b : Nat) : Int) := by
          rw [hmul]
          push_cast
          ring
        have e2 : ((k : Int) + 1) = (((k + 1 : Nat)) : Int) := by push_cast; ring
        rw [e1, e2, ih (k + 1) (by omega)]
        obtain ⟨c', hc'⟩ : ∃ c', min m ((movies.length - 1) / b) - k = c' + 1 :=
          ⟨min m ((movies.length - 1) / b) - k - 1, by omega⟩
        have hc2 : min m ((movies.length - 1) / b) - (k + 1) = c' := by omega
        rw [hc', hc2, hmul]
        have hdd : movies.drop (k * b + b) = (movies.drop (k * b)).drop b := by
          rw [List.drop_drop, Nat.add_comm]
        rw [hdd, show (c' + 1) * b = b + c' * b by ring, List.take_add]
      · rw [dispatched_loop.eq_def, dif_neg (by
          intro hcon
          have hklm : k < m := by exact_mod_cast hcon.1
          have hkD : (movies.length - 1) / b ≤ k := by omega
          have hnot : ¬ ((k + 1) * b ≤ movies.length - 1) := by
            intro hle
            have := hdiv1.mpr hle
            omega
          have hsl : ((k * b : Nat) : Int) < (movies.length : Int) - (b : Int) :=
            hcon.2
          have hlin : k * b + b < movies.length := by omega
          omega)]
        have hz : min m ((movies.length - 1) / b) - k = 0 := by omega
        rw [hz, Nat.zero_mul, List.take_zero]
  intro k
  exact key (m - k) k le_rfl

theorem dispatched_take (movies : List (String × Int)) (B M : Int)
    (hB : 0 < B) (hM : 0 < M) :
    dispatchedRecords movies B M
      = movies.take (min M.toNat ((movies.length - 1) / B.toNat) * B.toNat) := by
  obtain ⟨b, rfl⟩ : ∃ b : Nat, B = (b : Int) :=
    ⟨B.toNat, (Int.toNat_of_nonneg hB.le).symm⟩
  obtain ⟨m, rfl⟩ : ∃ m : Nat, M = (m : Int) :=
    ⟨M.toNat, (Int.toNat_of_nonneg hM.le).symm⟩
  have hb : 0 < b := by exact_mod_cast hB
  have h0 := dispatched_loop_char movies b m hb 0
  simp only [Nat.zero_mul, Nat.cast_zero, Nat.sub_zero, List.drop_zero] at h0
  rw [dispatchedRecords, h0, Int.toNat_natCast, Int.toNat_natCast]

/-- With a negative batch size, every batch after the first starts at a
negative `batch_start_index` and slices nothing: `iloc[s : s + B]` with
`s < 0 > B` has its stop no later than its start. -/
theorem dispatched_loop_neg_nil (movies : List (String × Int)) (B M : Int)
    (hB : B < 0) :
    ∀ (n : Nat) (s c : Int), (M - c).toNat ≤ n → s < 0 →
      dispatched_loop movies B M s c = [] := by
  intro n
  induction n with
  | zero =>
    intro s c hn hs
    rw [dispatched_loop.eq_def, dif_neg (by
      intro hcon
      omega)]
  | succ n ih =>
    intro s c hn hs
    rw [dispatched_loop.eq_def]
    by_cases hg : c < M ∧ s < (movies.length : Int) - B
    · rw [dif_pos hg, pySlice_neg_nil movies s B hs hB]
      by_cases hb2 : c + 1 > M
      · rw [if_pos hb2]
      · rw [if_neg hb2, ih (s + B) (c + 1) (by omega) (by omega), List.nil_append]
    · rw [dif_neg hg]

/-- With batch size 0, the loop spins on empty slices and dispatches
nothing. -/
theorem dispatched_loop_zero_nil (movies : List (String × Int)) (M : Int) :
    ∀ (n : Nat) (c : Int), (M - c).toNat ≤ n →
      dispatched_loop movies 0 M 0 c = [] := by
  intro n
  induction n with
  | zero =>
    intro c hn
    rw [dispatched_loop.eq_def, dif_neg (by
      intro hcon
      omega)]
  | succ n ih =>
    intro c hn
    rw [dispatched_loop.eq_def]
    by_cases hg : c < M ∧ (0 : Int) < (movies.length : Int) - 0
    · rw [dif_pos hg, pySlice_zero_zero]
      by_cases hb2 : c + 1 > M
      · rw [if_pos hb2]
      · rw [if_neg hb2]
        simp only [add_zero, List.nil_append]
        exact ih (c + 1) (by omega)
    · rw [dif_neg hg]

/-- Dispatch behaviour of a run with a nonpositive batch size: no
configuration check exists in the source, so the run proceeds; batch size 0
dispatches nothing, and a negative batch size dispatches the Python slice
`movies[0 : B]` in its first batch and nothing afterwards. -/
theorem dispatched_nonpos (movies : List (String × Int)) (B M : Int)
    (hB : B ≤ 0) (hM : 0 < M) :
    dispatchedRecords movies B M = if B = 0 then [] else pySlice movies 0 B := by
  rcases eq_or_lt_of_le hB with rfl | hneg
  · rw [if_pos rfl, dispatchedRecords,
      dispatched_loop_zero_nil movies M (M - 0).toNat 0 le_rfl]
  · rw [if_neg (by omega), dispatchedRecords, dispatched_loop.eq_def,
      dif_pos ⟨hM, by omega⟩]
    rw [if_neg (by omega)]
    simp only [zero_add]
    rw [dispatched_loop_neg_nil movies B M hneg (M - 1).toNat B 1 le_rfl
      (by omega), List.append_nil]

/-- A run of `get_imdb` with a nonpositive batch size: the run does not
fail; with `B = 0` it produces nothing, and with `B < 0` it processes
exactly the records of the Python slice `movies[0 : B]`. -/
theorem get_imdb_nonpos (movies : List (String × Int)) (B M : Int)
    (search : String → Except Unit (List RawCandidate))
    (getMovie : String → Except Unit Details)
    (hB : B ≤ 0) (hM : 0 < M) :
    get_imdb movies B M search getMovie
      = if B = 0 then []
        else (pySlice movies 0 B).filterMap
          (fun p => fetch_movie_data search getMovie p.1 p.2) := by
  rw [get_imdb_char, dispatched_nonpos movies B M hB hM]
  by_cases h0 : B = 0
  · rw [if_pos h0, if_pos h0]
    rfl
  · rw [if_neg h0, if_neg h0]

/-! ## Resolver lemmas -/

/-- Provenance of a successful worker result: it comes from a candidate of
the search-result list whose `'year'` equals the record's year and whose
`'title'` equals the record's title, and whose details fetch succeeded. -/
theorem resolveLoop_some (getMovie : String → Except Unit Details)
    (movie_name : String) (year : Int) :
    ∀ (cands : List RawCandidate) (r : EnrichedRecord),
      resolveLoop getMovie movie_name year cands = Except.ok (some r) →
      ∃ c ∈ cands, c.year = some year ∧ c.title = some movie_name ∧
        ∃ d, getMovie c.movieID = Except.ok d ∧ r = mkEnriched movie_name year d := by
  intro cands
  induction cands with
  | nil =>
    intro r h
    simp only [resolveLoop] at h
    simp at h
  | cons movie rest ih =>
    intro r h
    simp only [resolveLoop] at h
    cases hy : movie.year with
    | none =>
      rw [hy] at h
      simp [getItem] at h
    | some y' =>
      rw [hy] at h
      simp only [getItem] at h
      by_cases h1 : y' = year
      · rw [if_pos h1] at h
        cases ht : movie.title with
        | none =>
          rw [ht] at h
          simp [getItem] at h
        | some t =>
          rw [ht] at h
          simp only [getItem] at h
          by_cases h2 : t = movie_name
          · rw [if_pos h2] at h
            cases hg : getMovie movie.movieID with
            | error e =>
              rw [hg] at h
              simp at h
            | ok d =>
              rw [hg] at h
              simp only [Except.ok.injEq, Option.some.injEq] at h
              exact ⟨movie, List.mem_cons_self _ _, by rw [hy, h1],
                by rw [ht, h2], d, hg, h.symm⟩
          · rw [if_neg h2] at h
            obtain ⟨c, hc, hrest⟩ := ih r h
            exact ⟨c, List.mem_cons_of_mem _ hc, hrest⟩
      · rw [if_neg h1] at h
        obtain ⟨c, hc, hrest⟩ := ih r h
        exact ⟨c, List.mem_cons_of_mem _ hc, hrest⟩

/-- Provenance at the level of `fetch_movie_data`. -/
theorem fetch_movie_data_some (search : String → Except Unit (List RawCandidate))
    (getMovie : String → Except Unit Details)
    (movie_name : String) (year : Int) (r : EnrichedRecord)
    (h : fetch_movie_data search getMovie movie_name year = some r) :
    ∃ cands, search movie_name = Except.ok cands ∧
      ∃ c ∈ cands, c.year = some year ∧ c.title = some movie_name ∧
        ∃ d, getMovie c.movieID = Except.ok d ∧
          r = mkEnriched movie_name year d := by
  rw [fetch_movie_data, fetchTry] at h
  cases hs : search movie_name with
  | error e =>
    rw [hs] at h
    simp at h
  | ok cands =>
    rw [hs] at h
    dsimp only at h
    cases hr : resolveLoop getMovie movie_name year cands with
    | error e =>
      rw [hr] at h
      simp at h
    | ok v =>
      rw [hr] at h
      cases v with
      | none => simp at h
      | some r2 =>
        dsimp only at h
        injection h with h2
        subst h2
        exact ⟨cands, rfl, resolveLoop_some getMovie movie_name year cands _ hr⟩

/-- Scanning for a record with unknown year 0: a candidate whose `'year'`
value differs from 0 is skipped (or aborts the scan when a key is missing),
so the scan can only end in no-match or an exception. -/
theorem resolveLoop_zero (getMovie : String → Except Unit Details)
    (movie_name : String) :
    ∀ (cands : List RawCandidate),
      (∀ c ∈ cands, c.year ≠ some 0) →
      resolveLoop getMovie movie_name 0 cands = Except.ok none ∨
      resolveLoop getMovie movie_name 0 cands = Except.error () := by
  intro cands
  induction cands with
  | nil =>
    intro hall
    left
    rfl
  | cons movie rest ih =>
    intro hall
    simp only [resolveLoop]
    cases hy : movie.year with
    | none =>
      right
      simp [getItem]
    | some y' =>
      simp only [getItem]
      have hne : y' ≠ 0 := by
        intro h0
        exact hall movie (List.mem_cons_self _ _) (by rw [hy, h0])
      rw [if_neg hne]
      exact ih (fun c hc => hall c (List.mem_cons_of_mem _ hc))

/-- `fetch_movie_data` on a record with unknown year 0 returns `None`
whenever no candidate carries the year value 0. -/
theorem fetch_zero_none (search : String → Except Unit (List RawCandidate))
    (getMovie : String → Except Unit Details) (movie_name : String)
    (cands : List RawCandidate)
    (hs : search movie_name = Except.ok cands)
    (hall : ∀ c ∈ cands, c.year ≠ some 0) :
    fetch_movie_data search getMovie movie_name 0 = none := by
  rw [fetch_movie_data, fetchTry, hs]
  dsimp only
  rcases resolveLoop_zero getMovie movie_name cands hall with h | h
  · rw [h]
  · rw [h]

/-- A well-formed candidate failing the `year`/`title` equality test is
skipped: scanning continues with the remaining candidates (Python
short-circuits the title access when the year already differs). -/
theorem resolveLoop_toRaw_skip (getMovie : String → Except Unit Details)
    (movie_name : String) (year : Int) (a : Candidate) (l : List RawCandidate)
    (hna : ¬ (a.year = year ∧ a.title = movie_name)) :
    resolveLoop getMovie movie_name year (a.toRaw :: l)
        = resolveLoop getMovie movie_name year l ∧
    resolveCalls movie_name year (a.toRaw :: l)
        = resolveCalls movie_name year l := by
  by_cases hy : a.year = year
  · have ht : ¬ a.title = movie_name := fun ht => hna ⟨hy, ht⟩
    constructor
    · simp only [resolveLoop, Candidate.toRaw, getItem]
      rw [if_pos hy, if_neg ht]
    · simp only [resolveCalls, Candidate.toRaw]
      rw [if_pos hy, if_neg ht]
  · constructor
    · simp only [resolveLoop, Candidate.toRaw, getItem]
      rw [if_neg hy]
    · simp only [resolveCalls, Candidate.toRaw]
      rw [if_neg hy]

/-- A well-formed candidate passing both equality tests stops the scan:
the details of exactly this candidate are fetched. -/
theorem resolveLoop_toRaw_match (getMovie : String → Except Unit Details)
    (movie_name : String) (year : Int) (a : Candidate) (l : List RawCandidate)
    (hy : a.year = year) (ht : a.title = movie_name) :
    resolveLoop getMovie movie_name year (a.toRaw :: l)
      = (match getMovie a.externalId with
         | Except.error e => Except.error e
         | Except.ok d => Except.ok (some (mkEnriched movie_name year d))) ∧
    resolveCalls movie_name year (a.toRaw :: l) = [a.externalId] := by
  constructor
  · simp only [resolveLoop, Candidate.toRaw, getItem]
    rw [if_pos hy, if_pos ht]
  · simp only [resolveCalls, Candidate.toRaw]
    rw [if_pos hy, if_pos ht]

/-- Refinement of the candidate scan against the spec's resolution policy:
on well-formed candidates the scan selects exactly the first candidate (in
search order) whose year and title both match, fetches details for it
alone, and cleanly finds nothing when no candidate matches. -/
theorem resolveLoop_find (getMovie : String → Except Unit Details)
    (movie_name : String) (year : Int) :
    ∀ (cands : List Candidate),
      (∀ c, cands.find? (fun c => c.year == year && c.title == movie_name)
            = some c →
        resolveCalls movie_name year (cands.map Candidate.toRaw)
            = [c.externalId] ∧
        resolveLoop getMovie movie_name year (cands.map Candidate.toRaw)
          = match getMovie c.externalId with
            | Except.error e => Except.error e
            | Except.ok d => Except.ok (some (mkEnriched movie_name year d))) ∧
      (cands.find? (fun c => c.year == year && c.title == movie_name) = none →
        resolveLoop getMovie movie_name year (cands.map Candidate.toRaw)
            = Except.ok none ∧
        resolveCalls movie_name year (cands.map Candidate.toRaw) = []) := by
  intro cands
  induction cands with
  | nil =>
    constructor
    · intro c hc
      simp at hc
    · intro _
      exact ⟨rfl, rfl⟩
  | cons a rest ih =>
    have hmap : (a :: rest).map Candidate.toRaw
        = a.toRaw :: rest.map Candidate.toRaw := rfl
    by_cases hpa : a.year = year ∧ a.title = movie_name
    · have hfind : (a :: rest).find?
          (fun c => c.year == year && c.title == movie_name) = some a := by
        rw [List.find?_cons_of_pos]
        simp [hpa.1, hpa.2]
      constructor
      · intro c hc
        rw [hfind] at hc
        injection hc with hc
        subst hc
        rw [hmap]
        obtain ⟨h1, h2⟩ :=
          resolveLoop_toRaw_match getMovie movie_name year a _ hpa.1 hpa.2
        exact ⟨h2, h1⟩
      · intro hc
        rw [hfind] at hc
        exact absurd hc (by simp)
    · have hfind : (a :: rest).find?
            (fun c => c.year == year && c.title == movie_name)
          = rest.find? (fun c => c.year == year && c.title == movie_name) := by
        rw [List.find?_cons_of_neg]
        simp only [Bool.and_eq_true, beq_iff_eq]
        exact hpa
      constructor
      · intro c hc
        rw [hfind] at hc
        obtain ⟨h1, h2⟩ := ih.1 c hc
        rw [hmap]
        obtain ⟨hs1, hs2⟩ :=
          resolveLoop_toRaw_skip getMovie movie_name year a _ hpa
        exact ⟨by rw [hs2, h1], by rw [hs1, h2]⟩
      · intro hc
        rw [hfind] at hc
        obtain ⟨h1, h2⟩ := ih.2 hc
        rw [hmap]
        obtain ⟨hs1, hs2⟩ :=
          resolveLoop_toRaw_skip getMovie movie_name year a _ hpa
        exact ⟨by rw [hs1, h1], by rw [hs2, h2]⟩

/-- Scanning aborts with a `KeyError` at the first candidate that lacks the
accessed key, provided every earlier candidate was scanned without raising
and without matching; the candidates after it are never examined and no
details are ever fetched. -/
theorem resolveLoop_raise (getMovie : String → Except Unit Details)
    (movie_name : String) (year : Int) :
    ∀ (pre : List RawCandidate) (c : RawCandidate) (rest : List RawCandidate),
      (∀ p ∈ pre, ∃ y', p.year = some y' ∧
        (y' = year → ∃ t, p.title = some t ∧ t ≠ movie_name)) →
      (c.year = none ∨ (c.year = some year ∧ c.title = none)) →
      resolveLoop getMovie movie_name year (pre ++ c :: rest)
          = Except.error () ∧
      resolveCalls movie_name year (pre ++ c :: rest) = [] := by
  intro pre
  induction pre with
  | nil =>
    intro c rest _ hc
    rcases hc with hy | ⟨hy, ht⟩
    · constructor
      · simp [resolveLoop, getItem, hy]
      · simp [resolveCalls, hy]
    · constructor
      · simp [resolveLoop, getItem, hy, ht]
      · simp [resolveCalls, hy, ht]
  | cons p pre' ih =>
    intro c rest hall hc
    obtain ⟨y', hy', himp⟩ := hall p (List.mem_cons_self _ _)
    have hrest := ih c rest (fun q hq => hall q (List.mem_cons_of_mem _ hq)) hc
    by_cases hyy : y' = year
    · obtain ⟨t, ht, htn⟩ := himp hyy
      constructor
      · simp only [List.cons_append, resolveLoop, hy', getItem]
        rw [if_pos hyy]
        simp only [ht, getItem]
        rw [if_neg htn]
        exact hrest.1
      · simp only [List.cons_append, resolveCalls, hy']
        rw [if_pos hyy]
        simp only [ht]
        rw [if_neg htn]
        exact hrest.2
    · constructor
      · simp only [List.cons_append, resolveLoop, hy', getItem]
        rw [if_neg hyy]
        exact hrest.1
      · simp only [List.cons_append, resolveCalls, hy']
        rw [if_neg hyy]
        exact hrest.2

/-! ## Sample collaborator behaviours for concrete witnesses -/

/-- A fully-populated details record. -/
def sampleDetails : Details where
  kind := some "movie"
  genres := some ["Drama"]
  directors := some [{ personID := "nm1" }]
  rating := some 8
  cast := some [{ personID := "nm2" }]

/-- A details record with every optional key absent. -/
def emptyDetails : Details where
  kind := none
  genres := none
  directors := none
  rating := none
  cast := none

/-- A search behaviour returning one exact year-2000 candidate per title. -/
def okSearch : String → Except Unit (List RawCandidate) :=
  fun movie_name =>
    Except.ok [{ movieID := "tt-" ++ movie_name, title := some movie_name,
                 year := some 2000 }]

/-- A details fetch that always succeeds. -/
def okGet : String → Except Unit Details :=
  fun _ => Except.ok sampleDetails

/-- A search behaviour that raises for the title "B" and behaves like
`okSearch` otherwise. -/
def errSearch : String → Except Unit (List RawCandidate) :=
  fun movie_name =>
    if movie_name = "B" then Except.error () else okSearch movie_name

/-- A details fetch that always returns the all-absent record. -/
def emptyGet : String → Except Unit Details :=
  fun _ => Except.ok emptyDetails

/-- A search behaviour returning one candidate titled "E" of year 1990. -/
def oneSearch : String → Except Unit (List RawCandidate) :=
  fun _ =>
    Except.ok [{ movieID := "e1", title := some "E", year := some 1990 }]

/-! ## Claims -/

/-- Claim C1 is false as stated: for the catalog of length `L = 2` with
`batchSize B = 1` and `maxBatches M = 5`, the claimed count is
`min(M, L / B) * B = 2`, but the run dispatches only 1 record — the loop
guard `batch_start_index < L - batch_size` is strict, so when `B` divides
`L` the final full batch is dropped as well. -/
theorem C1_counterexample :
    ¬ ((dispatchedRecords [("A", 2000), ("B", 2000)] 1 5).length
        = min 5 (2 / 1) * 1) := by
  rw [dispatched_take [("A", 2000), ("B", 2000)] 1 5 (by norm_num) (by norm_num)]
  decide

/-- Claim C1, amended: for every catalog of length `L`, every
`batchSize B > 0` and `maxBatches M > 0`, the run dispatches exactly
`min(M, (L - 1) / B) * B` records — the contiguous catalog prefix of that
length, i.e. the slices `[k*B, (k+1)*B)` for `k < min(M, (L - 1) / B)`.
For `B` not dividing `L` this batch count equals `L / B` and the trailing
`L mod B` records are never dispatched, as claimed; when `B` divides `L`
the final full batch is additionally never dispatched. -/
theorem C1_amended_thm (movies : List (String × Int)) (B M : Int)
    (hB : 0 < B) (hM : 0 < M) :
    dispatchedRecords movies B M
        = movies.take (min M.toNat ((movies.length - 1) / B.toNat) * B.toNat)
      ∧ (dispatchedRecords movies B M).length
        = min M.toNat ((movies.length - 1) / B.toNat) * B.toNat
      ∧ ∀ (search : String → Except Unit (List RawCandidate))
          (getMovie : String → Except Unit Details),
          get_imdb movies B M search getMovie
            = (movies.take
                (min M.toNat ((movies.length - 1) / B.toNat) * B.toNat)).filterMap
                (fun p => fetch_movie_data search getMovie p.1 p.2) := by
  have h1 := dispatched_take movies B M hB hM
  refine ⟨h1, ?_, ?_⟩
  · rw [h1, List.length_take]
    have hd : (movies.length - 1) / B.toNat * B.toNat ≤ movies.length - 1 :=
      Nat.div_mul_le_self _ _
    have hm : min M.toNat ((movies.length - 1) / B.toNat) * B.toNat
        ≤ (movies.length - 1) / B.toNat * B.toNat :=
      Nat.mul_le_mul_right _ (min_le_right _ _)
    omega
  · intro search getMovie
    rw [get_imdb_char, h1]

/-- Witness for the amended claim C1 at `L = 3`, `B = 2`, `M = 5`:
`min(5, (3 - 1) / 2) * 2 = 2` records are dispatched — the first full
batch only, the trailing record being dropped. -/
theorem C1_witness :
    (0 : Int) < 2 ∧ (0 : Int) < 5 ∧
    dispatchedRecords [("A", 2000), ("B", 2000), ("C", 2000)] 2 5
      = [("A", 2000), ("B", 2000)] := by
  refine ⟨by norm_num, by norm_num, ?_⟩
  have h := (C1_amended_thm [("A", 2000), ("B", 2000), ("C", 2000)] 2 5
    (by norm_num) (by norm_num)).1
  rw [h]
  decide

/-- Claim C6 is false as stated: with `batchSize = -1 ≤ 0` the run does not
fail at start with a configuration error and it does produce results — the
first batch slices `movies[0 : -1]` (all but the last record) and processes
it. -/
theorem C6_counterexample :
    get_imdb [("A", 2000), ("B", 2000)] (-1) 1 okSearch okGet ≠ [] := by
  rw [get_imdb_nonpos [("A", 2000), ("B", 2000)] (-1) 1 okSearch okGet
    (by norm_num) (by norm_num)]
  rw [if_neg (by norm_num)]
  decide

/-- Claim C6, amended: the source performs no configuration validation, so
a run with `batchSize ≤ 0` does not fail and reports no error to the
caller.  With `batchSize = 0` it dispatches nothing and produces no
results (spinning through `maxBatches` empty batches); with
`batchSize < 0` its first batch dispatches the records of the Python
slice `movies[0 : batchSize]` and every later batch is empty. -/
theorem C6_amended_thm (movies : List (String × Int)) (B M : Int)
    (search : String → Except Unit (List RawCandidate))
    (getMovie : String → Except Unit Details)
    (hB : B ≤ 0) (hM : 0 < M) :
    get_imdb movies B M search getMovie
      = if B = 0 then []
        else (pySlice movies 0 B).filterMap
          (fun p => fetch_movie_data search getMovie p.1 p.2) :=
  get_imdb_nonpos movies B M search getMovie hB hM

/-- Witness for the amended claim C6 at `B = -1`, `M = 1` on a two-record
catalog. -/
theorem C6_witness :
    (-1 : Int) ≤ 0 ∧ (0 : Int) < 1 ∧
    get_imdb [("A", 2000), ("B", 2000)] (-1) 1 okSearch okGet
      = if (-1 : Int) = 0 then []
        else (pySlice [("A", 2000), ("B", 2000)] 0 (-1)).filterMap
          (fun p => fetch_movie_data okSearch okGet p.1 p.2) :=
  ⟨by norm_num, by norm_num,
    C6_amended_thm [("A", 2000), ("B", 2000)] (-1) 1 okSearch okGet
      (by norm_num) (by norm_num)⟩

/-- Claim C2 (confirmed): on well-formed candidates, the resolver inside
`fetch_movie_data` selects the first candidate in search-result order whose
title and year both equal the record's (exact, case-sensitive); details are
fetched for that candidate only; and when no candidate satisfies both
equalities the result is `None` with the scan ending cleanly
(`Except.ok none`), not by an exception. -/
theorem C2_thm (movie_name : String) (year : Int) (cands : List Candidate)
    (getMovie : String → Except Unit Details) :
    (∀ c, cands.find? (fun c => c.year == year && c.title == movie_name)
          = some c →
      resolveCalls movie_name year (cands.map Candidate.toRaw)
          = [c.externalId] ∧
      fetch_movie_data (fun _ => Except.ok (cands.map Candidate.toRaw))
          getMovie movie_name year
        = (match getMovie c.externalId with
           | Except.error _ => none
           | Except.ok d => some (mkEnriched movie_name year d))) ∧
    (cands.find? (fun c => c.year == year && c.title == movie_name) = none →
      fetchTry (fun _ => Except.ok (cands.map Candidate.toRaw))
          getMovie movie_name year = Except.ok none ∧
      resolveCalls movie_name year (cands.map Candidate.toRaw) = []) := by
  have h := resolveLoop_find getMovie movie_name year cands
  constructor
  · intro c hc
    obtain ⟨h1, h2⟩ := h.1 c hc
    refine ⟨h1, ?_⟩
    rw [fetch_movie_data, fetchTry]
    dsimp only
    rw [h2]
    cases hg : getMovie c.externalId with
    | error e => rfl
    | ok d => rfl
  · intro hc
    obtain ⟨h1, h2⟩ := h.2 hc
    refine ⟨?_, h2⟩
    rw [fetchTry]
    dsimp only
    exact h1

/-- Witness for claim C2: among two "Dune" candidates the first whose year
also matches (the 2021 one, in second position) is selected, its details
alone are fetched, and the enriched record is built from them. -/
theorem C2_witness :
    ([⟨"c1", "Dune", 1984⟩, ⟨"c2", "Dune", 2021⟩] : List Candidate).find?
        (fun c => c.year == 2021 && c.title == "Dune")
      = some ⟨"c2", "Dune", 2021⟩ ∧
    resolveCalls "Dune" 2021
        (([⟨"c1", "Dune", 1984⟩, ⟨"c2", "Dune", 2021⟩] : List Candidate).map
          Candidate.toRaw) = ["c2"] ∧
    fetch_movie_data
        (fun _ => Except.ok
          (([⟨"c1", "Dune", 1984⟩, ⟨"c2", "Dune", 2021⟩] : List Candidate).map
            Candidate.toRaw))
        okGet "Dune" 2021
      = some (mkEnriched "Dune" 2021 sampleDetails) := by
  have h := (C2_thm "Dune" 2021 [⟨"c1", "Dune", 1984⟩, ⟨"c2", "Dune", 2021⟩]
    okGet).1 ⟨"c2", "Dune", 2021⟩ (by decide)
  refine ⟨by decide, h.1, ?_⟩
  rw [h.2]
  rfl

/-- Claim C3 is false as stated: a record with unknown year 0 *does* match
a candidate carrying the year value 0 and an equal title, and enrichment
then returns a result rather than none. -/
theorem C3_counterexample :
    fetch_movie_data
        (fun _ => Except.ok [{ movieID := "tt0", title := some "X",
                               year := some 0 }])
        okGet "X" 0
      = some (mkEnriched "X" 0 sampleDetails) ∧
    fetch_movie_data
        (fun _ => Except.ok [{ movieID := "tt0", title := some "X",
                               year := some 0 }])
        okGet "X" 0 ≠ none := by
  constructor
  · rfl
  · decide

/-- Claim C3, amended: a record with unknown year 0 matches no candidate —
and its enrichment returns none — for every non-empty candidate sequence in
which no candidate carries the year value 0 (the equality policy has no
special case for 0, so a year-0 candidate would match). -/
theorem C3_amended_thm (movie_name : String) (cands : List RawCandidate)
    (getMovie : String → Except Unit Details)
    (_hne : cands ≠ [])
    (hall : ∀ c ∈ cands, c.year ≠ some 0) :
    fetch_movie_data (fun _ => Except.ok cands) getMovie movie_name 0
      = none :=
  fetch_zero_none (fun _ => Except.ok cands) getMovie movie_name cands rfl hall

/-- Witness for the amended claim C3 on a one-candidate list with a
known (non-zero) year. -/
theorem C3_witness :
    ([{ movieID := "tt1", title := some "X", year := some 1999 }] :
        List RawCandidate) ≠ [] ∧
    (∀ c ∈ ([{ movieID := "tt1", title := some "X", year := some 1999 }] :
        List RawCandidate), c.year ≠ some 0) ∧
    fetch_movie_data
        (fun _ => Except.ok [{ movieID := "tt1", title := some "X",
                               year := some 1999 }])
        okGet "X" 0 = none :=
  ⟨by decide, by decide,
    C3_amended_thm "X"
      [{ movieID := "tt1", title := some "X", year := some 1999 }]
      okGet (by decide) (by decide)⟩

/-- Claim C4 (confirmed): an exception from a `LookupClient` call during one
record's enrichment reaches `fetch_movie_data`'s catch-all handler and
becomes a no-result outcome (the reported error being the caught
exception), and the run's results are the oracle-independent dispatched
record list filtered through the per-record worker — so a raising record
contributes nothing while every other dispatched record of its batch and of
every later batch is still processed. -/
theorem C4_thm (movies : List (String × Int)) (B M : Int)
    (search : String → Except Unit (List RawCandidate))
    (getMovie : String → Except Unit Details) :
    get_imdb movies B M search getMovie
      = (dispatchedRecords movies B M).filterMap
          (fun p => fetch_movie_data search getMovie p.1 p.2) ∧
    ∀ movie_name year,
      fetchTry search getMovie movie_name year = Except.error () →
      fetch_movie_data search getMovie movie_name year = none := by
  refine ⟨get_imdb_char movies B M search getMovie, ?_⟩
  intro movie_name year h
  rw [fetch_movie_data, h]

/-- Witness for claim C4: the search for "B" raises; "B" yields no result
while the run still processes the whole dispatched list. -/
theorem C4_witness :
    fetchTry errSearch okGet "B" 2000 = Except.error () ∧
    fetch_movie_data errSearch okGet "B" 2000 = none ∧
    get_imdb [("A", 2000), ("B", 2000), ("C", 2000)] 1 2 errSearch okGet
      = (dispatchedRecords [("A", 2000), ("B", 2000), ("C", 2000)] 1 2).filterMap
          (fun p => fetch_movie_data errSearch okGet p.1 p.2) := by
  have h := C4_thm [("A", 2000), ("B", 2000), ("C", 2000)] 1 2 errSearch okGet
  exact ⟨rfl, h.2 "B" 2000 rfl, h.1⟩

/-- Claim C5 (confirmed): a run's accumulated `imdb_info` is exactly the
dispatched records filtered through the per-record worker, so its length
never exceeds the number of records dispatched, each dispatched record
contributes at most one entry, and every entry was built from a candidate
whose `'year'` and `'title'` exactly equalled the record's release year and
title and whose details fetch succeeded.  Instantiating `M` at each
`k ≤ maxBatches` gives the state after every batch step of a longer run, so
the invariant holds after every step. -/
theorem C5_thm (movies : List (String × Int)) (B M : Int)
    (search : String → Except Unit (List RawCandidate))
    (getMovie : String → Except Unit Details) :
    get_imdb movies B M search getMovie
      = (dispatchedRecords movies B M).filterMap
          (fun p => fetch_movie_data search getMovie p.1 p.2) ∧
    (get_imdb movies B M search getMovie).length
      ≤ (dispatchedRecords movies B M).length ∧
    ∀ r ∈ get_imdb movies B M search getMovie,
      ∃ p ∈ dispatchedRecords movies B M, ∃ cands,
        search p.1 = Except.ok cands ∧
        ∃ c ∈ cands, c.year = some p.2 ∧ c.title = some p.1 ∧
          ∃ d, getMovie c.movieID = Except.ok d ∧
            r = mkEnriched p.1 p.2 d := by
  have hchar := get_imdb_char movies B M search getMovie
  refine ⟨hchar, ?_, ?_⟩
  · rw [hchar]
    exact List.length_filterMap_le _ _
  · intro r hr
    rw [hchar] at hr
    obtain ⟨p, hp, hf⟩ := List.mem_filterMap.mp hr
    obtain ⟨cands, hs, hcand⟩ :=
      fetch_movie_data_some search getMovie p.1 p.2 r hf
    exact ⟨p, hp, cands, hs, hcand⟩

/-- Witness for claim C5 on a three-record catalog with `B = 1`, `M = 2`:
the result list is no longer than the dispatched list, and the enriched
record for "A" traces back to a dispatched record and an exactly matching
candidate whose details fetch succeeded. -/
theorem C5_witness :
    (get_imdb [("A", 2000), ("B", 2000), ("C", 2000)] 1 2 okSearch
        okGet).length
      ≤ (dispatchedRecords [("A", 2000), ("B", 2000), ("C", 2000)] 1 2).length ∧
    ∃ p ∈ dispatchedRecords [("A", 2000), ("B", 2000), ("C", 2000)] 1 2,
      ∃ cands, okSearch p.1 = Except.ok cands ∧
        ∃ c ∈ cands, c.year = some p.2 ∧ c.title = some p.1 ∧
          ∃ d, okGet c.movieID = Except.ok d ∧
            mkEnriched "A" 2000 sampleDetails = mkEnriched p.1 p.2 d := by
  have h := C5_thm [("A", 2000), ("B", 2000), ("C", 2000)] 1 2 okSearch okGet
  refine ⟨h.2.1, h.2.2 (mkEnriched "A" 2000 sampleDetails) ?_⟩
  rw [h.1, dispatched_take [("A", 2000), ("B", 2000), ("C", 2000)] 1 2
    (by norm_num) (by norm_num)]
  decide

/-- Claim C7 (confirmed): assembling the enriched record is total over the
fetched details — each missing optional key (`kind`, `genres`, `directors`,
`rating`, `cast`) maps to its documented empty/absent default — and a
record whose matching candidate's details fetch succeeds is always
enriched, whatever keys its details lack. -/
theorem C7_thm (movie_name : String) (year : Int) (d : Details) :
    (d.kind = none → (mkEnriched movie_name year d).Type' = none) ∧
    (d.genres = none → (mkEnriched movie_name year d).Genres = []) ∧
    (d.directors = none → (mkEnriched movie_name year d).Director = []) ∧
    (d.rating = none → (mkEnriched movie_name year d).IMDBRating = none) ∧
    (d.cast = none → (mkEnriched movie_name year d).Cast = []) ∧
    ∀ (search : String → Except Unit (List RawCandidate))
      (getMovie : String → Except Unit Details) (c : RawCandidate),
      search movie_name = Except.ok [c] →
      c.year = some year → c.title = some movie_name →
      getMovie c.movieID = Except.ok d →
      fetch_movie_data search getMovie movie_name year
        = some (mkEnriched movie_name year d) := by
  refine ⟨?_, ?_, ?_, ?_, ?_, ?_⟩
  · intro h
    simp [mkEnriched, h]
  · intro h
    simp [mkEnriched, h]
  · intro h
    simp [mkEnriched, h]
  · intro h
    simp [mkEnriched, h]
  · intro h
    simp [mkEnriched, h]
  · intro search getMovie c hs hy ht hg
    rw [fetch_movie_data, fetchTry, hs]
    dsimp only
    simp [resolveLoop, getItem, hy, ht, hg]

/-- Witness for claim C7 with an all-absent details record: every field of
the assembled record is its default and the enrichment still succeeds. -/
theorem C7_witness :
    (mkEnriched "E" 1990 emptyDetails).Type' = none ∧
    (mkEnriched "E" 1990 emptyDetails).Genres = [] ∧
    (mkEnriched "E" 1990 emptyDetails).Director = [] ∧
    (mkEnriched "E" 1990 emptyDetails).IMDBRating = none ∧
    (mkEnriched "E" 1990 emptyDetails).Cast = [] ∧
    fetch_movie_data oneSearch emptyGet "E" 1990
      = some (mkEnriched "E" 1990 emptyDetails) := by
  have h := C7_thm "E" 1990 emptyDetails
  exact ⟨h.1 rfl, h.2.1 rfl, h.2.2.1 rfl, h.2.2.2.1 rfl, h.2.2.2.2.1 rfl,
    h.2.2.2.2.2 oneSearch emptyGet
      { movieID := "e1", title := some "E", year := some 1990 }
      rfl rfl rfl rfl⟩

/-- Claim C9 (confirmed): whatever the lookup collaborator does (including
raising on search or on the details fetch), `fetch_movie_data` is total —
it yields a normal value, `None` on every caught exception and the try
block's value otherwise — so the future built from it never holds an
exception and the scheduler's per-future `except` branch is unreachable. -/
theorem C9_thm (search : String → Except Unit (List RawCandidate))
    (getMovie : String → Except Unit Details)
    (movie_name : String) (year : Int) :
    (∃ r : Option EnrichedRecord,
      futureResult search getMovie movie_name year = Except.ok r) ∧
    (∀ e, futureResult search getMovie movie_name year ≠ Except.error e) ∧
    (fetchTry search getMovie movie_name year = Except.error () →
      fetch_movie_data search getMovie movie_name year = none) ∧
    (∀ r, fetchTry search getMovie movie_name year = Except.ok r →
      fetch_movie_data search getMovie movie_name year = r) := by
  refine ⟨⟨fetch_movie_data search getMovie movie_name year, rfl⟩, ?_, ?_, ?_⟩
  · intro e h
    rw [futureResult] at h
    exact absurd h (by simp)
  · intro h
    rw [fetch_movie_data, h]
  · intro r h
    rw [fetch_movie_data, h]

/-- Witness for claim C9 at a record whose search raises: the future still
holds a normal value, namely `None`. -/
theorem C9_witness :
    (∃ r : Option EnrichedRecord,
      futureResult errSearch okGet "B" 2000 = Except.ok r) ∧
    fetch_movie_data errSearch okGet "B" 2000 = none :=
  ⟨(C9_thm errSearch okGet "B" 2000).1,
    (C9_thm errSearch okGet "B" 2000).2.2.1 rfl⟩

/-- Claim C10 is false as stated: a candidate that precedes the first match
and lacks the `'title'` key does not necessarily abort the scan — Python's
`and` short-circuits, so when its `'year'` value already differs the
missing title is never accessed, the candidate is skipped, and a later
exactly matching candidate is still selected. -/
theorem C10_counterexample :
    fetch_movie_data
        (fun _ => Except.ok
          [{ movieID := "p1", title := none, year := some 1999 },
           { movieID := "p2", title := some "X", year := some 2000 }])
        okGet "X" 2000
      = some (mkEnriched "X" 2000 sampleDetails) ∧
    fetch_movie_data
        (fun _ => Except.ok
          [{ movieID := "p1", title := none, year := some 1999 },
           { movieID := "p2", title := some "X", year := some 2000 }])
        okGet "X" 2000 ≠ none := by
  constructor
  · rfl
  · decide

/-- Claim C10, amended: the scan aborts with a `KeyError` — so the whole
record's enrichment returns none, later candidates (even an exactly
matching one) are never examined, and no details are fetched — exactly when
the offending candidate lacks `'year'`, or has `'year'` equal to the
record's year but lacks `'title'`, provided every earlier candidate was
scanned without raising and without matching.  A preceding candidate
lacking only `'title'` whose year differs is skipped without raising. -/
theorem C10_amended_thm (getMovie : String → Except Unit Details)
    (movie_name : String) (year : Int)
    (pre : List RawCandidate) (c : RawCandidate) (rest : List RawCandidate)
    (hall : ∀ p ∈ pre, ∃ y', p.year = some y' ∧
      (y' = year → ∃ t, p.title = some t ∧ t ≠ movie_name))
    (hc : c.year = none ∨ (c.year = some year ∧ c.title = none)) :
    fetchTry (fun _ => Except.ok (pre ++ c :: rest)) getMovie movie_name year
        = Except.error () ∧
    fetch_movie_data (fun _ => Except.ok (pre ++ c :: rest)) getMovie
        movie_name year = none ∧
    resolveCalls movie_name year (pre ++ c :: rest) = [] := by
  obtain ⟨h1, h2⟩ := resolveLoop_raise getMovie movie_name year pre c rest hall hc
  have hft : fetchTry (fun _ => Except.ok (pre ++ c :: rest)) getMovie
      movie_name year = Except.error () := by
    rw [fetchTry]
    dsimp only
    exact h1
  exact ⟨hft, by rw [fetch_movie_data, hft], h2⟩

/-- Witness for the amended claim C10: the first candidate has a
non-matching year (scanned, no raise), the second lacks `'year'` and aborts
the scan, and the third — an exact match — is never examined; the record
yields none and no details are fetched. -/
theorem C10_witness :
    fetchTry
        (fun _ => Except.ok
          ([{ movieID := "p1", title := some "Y", year := some 1999 }] ++
            { movieID := "p2", title := some "X", year := none } ::
              [{ movieID := "p3", title := some "X", year := some 2000 }]))
        okGet "X" 2000 = Except.error () ∧
    fetch_movie_data
        (fun _ => Except.ok
          ([{ movieID := "p1", title := some "Y", year := some 1999 }] ++
            { movieID := "p2", title := some "X", year := none } ::
              [{ movieID := "p3", title := some "X", year := some 2000 }]))
        okGet "X" 2000 = none ∧
    resolveCalls "X" 2000
        ([{ movieID := "p1", title := some "Y", year := some 1999 }] ++
          { movieID := "p2", title := some "X", year := none } ::
            [{ movieID := "p3", title := some "X", year := some 2000 }]) = [] :=
  C10_amended_thm okGet "X" 2000
    [{ movieID := "p1", title := some "Y", year := some 1999 }]
    { movieID := "p2", title := some "X", year := none }
    [{ movieID := "p3", title := some "X", year := some 2000 }]
    (by
      intro p hp
      simp only [List.mem_singleton] at hp
      subst hp
      exact ⟨1999, rfl, fun hcon => absurd hcon (by decide)⟩)
    (Or.inl rfl)
